import Mathlib

/-!
Shallow embedding of the Virtual Slope depth controller
(repository VIrtual_Slope: src/VS_controller.py, src/backseat_api_overload.py,
src/DesBridge_api.py, main.py).

Machine reals are modelled as rationals; wall-clock time is an explicit
`now : ℚ` argument threaded to the tick function. The configuration values
read from config.yaml become an explicit `Config` record.
-/

/-- Configuration values read from config.yaml (src/config.py) that the
depth controller and the backseat client consume. -/
structure Config where
  min_depth : ℚ
  max_depth : ℚ
  altitude_threshold_level : ℚ
  altitude_threshold_ascend : ℚ
  wait_time : ℚ
  transition_time : ℕ

/-- Safety states for depth control (class State in src/VS_controller.py). -/
inductive State where
  | NORMAL
  | HOLD
  | ASCEND
  | WAIT
  | RETURN
deriving DecidableEq, Repr

/-- Mutable fields of class DepthController (src/VS_controller.py).
The numpy step iterator is represented by the generated list together with
the index of the next element to be consumed. -/
structure DepthController where
  current_z : ℚ
  end_z : ℚ
  step : ℚ
  end_z_reached : Bool
  target_step : ℚ
  current_step : ℚ
  max_angle_step : ℚ
  trajectory_down : Bool
  altitude_threshold_level : ℚ
  altitude_threshold_ascend : ℚ
  wait_time : ℚ
  command_depth : ℚ
  state : State
  state_start_time : Option ℚ
  wait_from_ascend : Bool
  planned_z : ℚ
  error_compensation_active : Bool
  original_target_step : ℚ
  original_previous_step : ℚ
  transition_list : List ℚ
  step_iterator_idx : ℕ
  step_transition_active : Bool

/-- Evaluation of numpy.linspace(a, b, n): n evenly spaced points from a to b,
endpoints included (for n = 1 numpy returns [a]). -/
def linspace (a b : ℚ) (n : ℕ) : List ℚ :=
  if n = 0 then []
  else if n = 1 then [a]
  else (List.range n).map fun i : ℕ => a + (b - a) * (i : ℚ) / ((n : ℚ) - 1)

namespace DepthController

/-- Constructor DepthController.__init__ (src/VS_controller.py lines 23-70). -/
def init (cfg : Config) (start_z end_z step max_angle_step : ℚ)
    (trajectory_down : Bool) (previous_step : ℚ) : DepthController :=
  { current_z := start_z
    end_z := end_z
    step := step
    end_z_reached := false
    target_step := step
    current_step := previous_step
    max_angle_step := max_angle_step
    trajectory_down := trajectory_down
    altitude_threshold_level := cfg.altitude_threshold_level
    altitude_threshold_ascend := cfg.altitude_threshold_ascend
    wait_time := cfg.wait_time
    command_depth := start_z
    state := State.NORMAL
    state_start_time := none
    wait_from_ascend := false
    planned_z := start_z
    error_compensation_active := false
    original_target_step := step
    original_previous_step := previous_step
    transition_list := linspace previous_step step cfg.transition_time
    step_iterator_idx := 0
    step_transition_active := decide (previous_step ≠ step) }

/-- Method DepthController._on_enter_state (lines 148-178): entry actions
performed when a new state is entered. -/
def on_enter_state (c : DepthController) (s : State) (from_st : State)
    (now : ℚ) : DepthController :=
  match s with
  | State.ASCEND => { c with state_start_time := none, command_depth := c.current_z }
  | State.HOLD => { c with state_start_time := none }
  | State.WAIT =>
      { c with state_start_time := some now,
               wait_from_ascend := decide (from_st = State.ASCEND) }
  | State.RETURN => c
  | State.NORMAL => { c with state_start_time := none }

/-- Method DepthController._set_state (lines 133-146): no-op when the new
state equals the current one, otherwise record the new state and run the
entry actions with the previous state as context. -/
def set_state (c : DepthController) (s : State) (now : ℚ) : DepthController :=
  if c.state = s then c
  else on_enter_state { c with state := s } s c.state now

/-- Method DepthController._wait_finished (lines 369-375). -/
def wait_finished (c : DepthController) (now : ℚ) : Bool :=
  match c.state_start_time with
  | none => false
  | some t => decide (now - t ≥ c.wait_time)

/-- Method DepthController._return_caught_vs (lines 377-379). -/
def return_caught_vs (c : DepthController) : Bool :=
  decide (c.command_depth ≥ c.current_z)

/-- Method DepthController._handle_transitions (lines 90-131). -/
def handle_transitions (c : DepthController) (altitude : Option ℚ)
    (now : ℚ) : DepthController :=
  match altitude with
  | none => if c.state ≠ State.NORMAL then c.set_state State.NORMAL now else c
  | some a =>
    if a < c.altitude_threshold_ascend then c.set_state State.ASCEND now
    else if c.trajectory_down = true ∧ a < c.altitude_threshold_level then
      c.set_state State.HOLD now
    else
      match c.state with
      | State.ASCEND => c.set_state State.WAIT now
      | State.HOLD => c.set_state State.WAIT now
      | State.WAIT =>
          if c.wait_finished now then c.set_state State.RETURN now else c
      | State.RETURN =>
          if c.return_caught_vs then c.set_state State.NORMAL now else c
      | State.NORMAL => c

/-- Method DepthController._clamp_depth (lines 338-340). -/
def clamp_depth (cfg : Config) (depth : ℚ) : ℚ :=
  max cfg.min_depth (min depth cfg.max_depth)

/-- Method DepthController._state_normal (lines 193-215). The value passed
to _send_command is exactly the command_depth stored in the result. -/
def state_normal (c : DepthController) : DepthController :=
  if c.end_z_reached then { c with command_depth := c.end_z }
  else
    if c.trajectory_down then
      if c.current_z + c.current_step ≥ c.end_z then
        { c with command_depth := c.end_z, current_z := c.end_z, end_z_reached := true }
      else { c with command_depth := c.current_z }
    else
      if c.current_z + c.current_step ≤ c.end_z then
        { c with command_depth := c.end_z, current_z := c.end_z, end_z_reached := true }
      else { c with command_depth := c.current_z }

/-- Method DepthController._state_hold (lines 217-222): re-send the held
command_depth; no state fields change. -/
def state_hold (c : DepthController) : DepthController := c

/-- Method DepthController._state_ascend (lines 224-234). -/
def state_ascend (cfg : Config) (c : DepthController) : DepthController :=
  { c with command_depth := clamp_depth cfg (c.command_depth - c.max_angle_step) }

/-- Method DepthController._state_wait (lines 236-251). -/
def state_wait (cfg : Config) (c : DepthController) : DepthController :=
  if c.wait_from_ascend then
    { c with command_depth := clamp_depth cfg (c.command_depth - c.max_angle_step) }
  else c

/-- Method DepthController._state_return (lines 253-283). -/
def state_return (cfg : Config) (c : DepthController) (now : ℚ) : DepthController :=
  if c.trajectory_down then
    if clamp_depth cfg (c.command_depth + c.max_angle_step) ≥ c.current_z then
      { c with command_depth := c.current_z }
    else
      { c with command_depth := clamp_depth cfg (c.command_depth + c.max_angle_step) }
  else
    if c.current_z ≤ c.command_depth then c.set_state State.NORMAL now else c

/-- Method DepthController._execute_current_state (lines 180-191). -/
def execute_current_state (cfg : Config) (c : DepthController)
    (now : ℚ) : DepthController :=
  match c.state with
  | State.NORMAL => c.state_normal
  | State.HOLD => c.state_hold
  | State.ASCEND => state_ascend cfg c
  | State.WAIT => state_wait cfg c
  | State.RETURN => state_return cfg c now

/-- Method DepthController._calculate_error_compensation (lines 298-326). -/
def calculate_error_compensation (c : DepthController) : DepthController :=
  let smoothed_movement := c.transition_list.sum
  let linear_movement := c.original_target_step * (c.transition_list.length : ℚ)
  let accumulated_error := linear_movement - smoothed_movement
  let total_trajectory := c.end_z - c.planned_z
  let remaining_trajectory := total_trajectory - linear_movement
  if |remaining_trajectory| > 0 ∧ |c.original_target_step| > 0 then
    let remaining_steps : ℤ := ⌈|remaining_trajectory / c.original_target_step|⌉
    if remaining_steps > 0 then
      { c with current_step := c.original_target_step + accumulated_error / (remaining_steps : ℚ)
               target_step := c.original_target_step + accumulated_error / (remaining_steps : ℚ)
               error_compensation_active := true }
    else { c with current_step := c.original_target_step }
  else { c with current_step := c.original_target_step }

/-- Method DepthController._update_step_transition (lines 285-296): consume
the next element of the transition sequence, or on exhaustion deactivate
the transition and run the error compensation. -/
def update_step_transition (c : DepthController) : DepthController :=
  if c.step_transition_active then
    match c.transition_list.get? c.step_iterator_idx with
    | some v => { c with current_step := v, step_iterator_idx := c.step_iterator_idx + 1 }
    | none => calculate_error_compensation { c with step_transition_active := false }
  else c

/-- Method DepthController._advance_vs (lines 342-367). -/
def advance_vs (c : DepthController) : DepthController :=
  if c.end_z_reached then c
  else
    if (if c.trajectory_down then c.current_z ≥ c.end_z else c.current_z ≤ c.end_z) then
      { c with current_z := c.end_z, end_z_reached := true }
    else { c with current_z := c.current_z + c.current_step }

/-- Method DepthController.update (lines 71-88): the per-tick sequence. -/
def update (cfg : Config) (c : DepthController) (altitude : Option ℚ)
    (now : ℚ) : DepthController :=
  let c1 := c.update_step_transition
  let c2 := c1.handle_transitions altitude now
  let active_state := c2.state
  let c3 := execute_current_state cfg c2 now
  let c4 := c3.advance_vs
  if active_state = State.RETURN ∧ c4.trajectory_down = false then
    if c4.current_z ≤ c4.command_depth then c4.set_state State.NORMAL now else c4
  else c4

/-- Iterated ticks of the controller driven by per-tick altitude and
wall-clock sequences. -/
def run (cfg : Config) (alts : ℕ → Option ℚ) (nows : ℕ → ℚ)
    (c : DepthController) : ℕ → DepthController
  | 0 => c
  | n + 1 => update cfg (run cfg alts nows c n) (alts n) (nows n)

end DepthController

/-!
Backseat client (src/backseat_api_overload.py). The module-level variable
_last_valid_depth is the explicit state; the HTTP POST itself is external,
so send_z_command is modelled as returning the zSetpoint actually posted
(none when the command is rejected without sending) together with the new
_last_valid_depth.
-/

namespace Backseat

/-- Function send_z_command (src/backseat_api_overload.py lines 10-47):
envelope check against config.min_depth/max_depth, substitution of the last
valid depth for an out-of-envelope input, rejection when no valid depth has
ever been recorded. First component: the zSetpoint posted (none = rejected,
nothing sent); second component: the _last_valid_depth after the call. -/
def send_z_command (cfg : Config) (last_valid_depth : Option ℚ)
    (z_value : ℚ) : Option ℚ × Option ℚ :=
  if z_value < cfg.min_depth ∨ z_value > cfg.max_depth then
    match last_valid_depth with
    | some v => (some v, last_valid_depth)
    | none => (none, last_valid_depth)
  else
    (some z_value, some z_value)

/-- Run of send_z_command over a list of requested depths starting from a
given _last_valid_depth; returns the list of setpoints actually posted and
the final _last_valid_depth. -/
def run_sends (cfg : Config) : Option ℚ → List ℚ → List ℚ × Option ℚ
  | last, [] => ([], last)
  | last, z :: zs =>
    match send_z_command cfg last z with
    | (posted, last') =>
      let rest := run_sends cfg last' zs
      (posted.toList ++ rest.1, rest.2)

end Backseat

/-!
Navigation ingestor (src/DesBridge_api.py). Python float(...) parsing is
kept abstract as a parameter pf : String → Option ℚ (returning none exactly
when float(...) raises); the publication decision and the field/attribute
mapping do not depend on it. Only the load-bearing NavigationData fields
named by the claims are carried; the remaining scalar fields of the
dataclass are built by the same safe_float pattern and never read by the
core, so they are elided.
-/

namespace DesBridge

/-- Load-bearing fields of dataclass NavigationData (src/DesBridge_api.py):
latitude (field 1), longitude (field 2), depth (field 4), altitude
(field 5), heading (field 23). -/
structure NavigationData where
  latitude : Option ℚ
  longitude : Option ℚ
  depth : Option ℚ
  altitude : Option ℚ
  heading : Option ℚ
deriving DecidableEq, Repr

/-- Evaluation of Python str.split(sep) for a one-character separator,
on the character list of the string: maximal split, empty pieces kept. -/
def split_char (sep : Char) : List Char → List (List Char)
  | [] => [[]]
  | c :: cs =>
    if c = sep then [] :: split_char sep cs
    else
      match split_char sep cs with
      | [] => [[c]]
      | f :: fs => (c :: f) :: fs

/-- Method DesBridgeDataProvider.safe_float (src/DesBridge_api.py lines
286-293): empty, whitespace-only and UNDEF (case-insensitive) inputs and
float() failures all map to absent. The parameter pf abstracts Python
float(...), returning none exactly when float(...) raises. -/
def safe_float (pf : List Char → Option ℚ) (value : List Char) : Option ℚ :=
  if value = [] then none
  else if value.map Char.toUpper = "UNDEF".toList then none
  else if value.all Char.isWhitespace then none
  else pf value

/-- Method DesBridgeDataProvider.parse_navigation (src/DesBridge_api.py
lines 194-284) restricted to the load-bearing fields: strip a *checksum
suffix, split on commas, require at least 10 comma-separated fields
(the $NAVIGATION header token included), and convert each data field
through safe_float. Returns none when the line is dropped. -/
def parse_navigation (pf : List Char → Option ℚ) (nav_message : List Char) :
    Option NavigationData :=
  let msg := nav_message.takeWhile (fun c => c ≠ '*')
  let fields := split_char ',' msg
  if fields.length < 10 then none
  else
    some
      { latitude := if fields.length > 1 then safe_float pf (fields.getD 1 []) else none
        longitude := if fields.length > 2 then safe_float pf (fields.getD 2 []) else none
        depth := if fields.length > 4 then safe_float pf (fields.getD 4 []) else none
        altitude := if fields.length > 5 then safe_float pf (fields.getD 5 []) else none
        heading := if fields.length > 23 then safe_float pf (fields.getD 23 []) else none }

/-- Method DesBridgeDataProvider.process_message (src/DesBridge_api.py lines
184-192) acting on the stored latest_navigation snapshot: only $NAVIGATION
lines that parse successfully replace the snapshot. -/
def process_message (pf : List Char → Option ℚ) (latest_navigation : Option NavigationData)
    (message : List Char) : Option NavigationData :=
  if "$HBEAT".toList.isPrefixOf message then latest_navigation
  else if "$NAVIGATION".toList.isPrefixOf message then
    match parse_navigation pf message with
    | some nav => some nav
    | none => latest_navigation
  else latest_navigation

/-- Concrete instantiation of the abstract float parser used for closed
witnesses: plain decimal numerals with optional sign and fraction, a strict
subset of what Python float() accepts. -/
def parse_decimal (s : List Char) : Option ℚ :=
  let core (t : List Char) : Option ℚ :=
    match t.span Char.isDigit with
    | (intPart, rest) =>
      if intPart = [] then none
      else
        let iv : ℚ := (intPart.foldl (fun acc c => acc * 10 + (c.toNat - 48)) 0 : ℕ)
        match rest with
        | [] => some iv
        | '.' :: frac =>
          if frac ≠ [] ∧ frac.all Char.isDigit then
            let fv : ℚ := (frac.foldl (fun acc c => acc * 10 + (c.toNat - 48)) 0 : ℕ)
            some (iv + fv / (10 ^ frac.length : ℕ))
          else none
        | _ => none
  match s with
  | '-' :: t => (core t).map (fun q => -q)
  | '+' :: t => core t
  | t => core t

end DesBridge

/-!
Phase manager / VS loop handoff (main.py, src/phase_manager.py). Only the
last_step continuity mechanism is load-bearing for the claims: the finally
block of virtual_slope_loop (main.py lines 96-103) writes the departing
controller's current_step into the manager on every exit path.
-/

/-- Continuity state of PhaseManager (src/phase_manager.py): the last_step
carried from one subphase controller to the next. -/
structure PhaseManager where
  last_step : ℚ

/-- Method PhaseManager.set_last_step. -/
def PhaseManager.set_last_step (m : PhaseManager) (v : ℚ) : PhaseManager :=
  { m with last_step := v }

/-- Ways the VS loop body can terminate: cooperative cancellation, an
exception, or normal completion. -/
inductive ExitPath where
  | completed
  | error
  | cancelled

/-- Finally block of virtual_slope_loop (main.py lines 96-103): whichever
way the loop exits after however many ticks, the manager receives the
controller's final current_step. -/
def virtual_slope_loop_exit (manager : PhaseManager) (controller : DepthController)
    (_e : ExitPath) : PhaseManager :=
  manager.set_last_step controller.current_step

/-!
Helper lemmas: which DepthController fields each tick stage leaves
untouched, and the state produced by set_state.
-/

namespace DepthController

theorem on_enter_state_untouched (c : DepthController) (s f : State) (now : ℚ) :
    (c.on_enter_state s f now).current_z = c.current_z ∧
    (c.on_enter_state s f now).end_z = c.end_z ∧
    (c.on_enter_state s f now).end_z_reached = c.end_z_reached ∧
    (c.on_enter_state s f now).current_step = c.current_step ∧
    (c.on_enter_state s f now).step_transition_active = c.step_transition_active ∧
    (c.on_enter_state s f now).state = c.state ∧
    (c.on_enter_state s f now).trajectory_down = c.trajectory_down := by
  cases s <;> exact ⟨rfl, rfl, rfl, rfl, rfl, rfl, rfl⟩

theorem set_state_state (c : DepthController) (s : State) (now : ℚ) :
    (c.set_state s now).state = s := by
  unfold set_state
  split
  case isTrue h => exact h
  case isFalse h =>
    rw [(on_enter_state_untouched { c with state := s } s c.state now).2.2.2.2.2.1]

theorem set_state_untouched (c : DepthController) (s : State) (now : ℚ) :
    (c.set_state s now).current_z = c.current_z ∧
    (c.set_state s now).end_z = c.end_z ∧
    (c.set_state s now).end_z_reached = c.end_z_reached ∧
    (c.set_state s now).current_step = c.current_step ∧
    (c.set_state s now).step_transition_active = c.step_transition_active ∧
    (c.set_state s now).trajectory_down = c.trajectory_down := by
  unfold set_state
  split
  · exact ⟨rfl, rfl, rfl, rfl, rfl, rfl⟩
  · have h := on_enter_state_untouched { c with state := s } s c.state now
    exact ⟨h.1, h.2.1, h.2.2.1, h.2.2.2.1, h.2.2.2.2.1, h.2.2.2.2.2.2⟩

theorem set_state_current_z (c : DepthController) (s : State) (now : ℚ) :
    (c.set_state s now).current_z = c.current_z := (set_state_untouched c s now).1

theorem set_state_end_z (c : DepthController) (s : State) (now : ℚ) :
    (c.set_state s now).end_z = c.end_z := (set_state_untouched c s now).2.1

theorem set_state_end_z_reached (c : DepthController) (s : State) (now : ℚ) :
    (c.set_state s now).end_z_reached = c.end_z_reached := (set_state_untouched c s now).2.2.1

theorem set_state_current_step (c : DepthController) (s : State) (now : ℚ) :
    (c.set_state s now).current_step = c.current_step := (set_state_untouched c s now).2.2.2.1

theorem set_state_step_transition_active (c : DepthController) (s : State) (now : ℚ) :
    (c.set_state s now).step_transition_active = c.step_transition_active :=
  (set_state_untouched c s now).2.2.2.2.1

theorem set_state_trajectory_down (c : DepthController) (s : State) (now : ℚ) :
    (c.set_state s now).trajectory_down = c.trajectory_down :=
  (set_state_untouched c s now).2.2.2.2.2

theorem handle_transitions_untouched (c : DepthController) (alt : Option ℚ) (now : ℚ) :
    (c.handle_transitions alt now).current_z = c.current_z ∧
    (c.handle_transitions alt now).end_z = c.end_z ∧
    (c.handle_transitions alt now).end_z_reached = c.end_z_reached ∧
    (c.handle_transitions alt now).current_step = c.current_step ∧
    (c.handle_transitions alt now).step_transition_active = c.step_transition_active ∧
    (c.handle_transitions alt now).trajectory_down = c.trajectory_down := by
  unfold handle_transitions
  rcases alt with _ | a <;> simp only <;> (repeat' split) <;>
    simp only [set_state_current_z, set_state_end_z, set_state_end_z_reached,
      set_state_current_step, set_state_step_transition_active,
      set_state_trajectory_down, and_self]

theorem execute_current_state_untouched (cfg : Config) (c : DepthController) (now : ℚ) :
    (execute_current_state cfg c now).end_z = c.end_z ∧
    (execute_current_state cfg c now).current_step = c.current_step ∧
    (execute_current_state cfg c now).step_transition_active = c.step_transition_active ∧
    (execute_current_state cfg c now).trajectory_down = c.trajectory_down := by
  unfold execute_current_state state_normal state_hold state_ascend state_wait state_return
  rcases c with ⟨_, _, _, _, _, _, _, _, _, _, _, _, st, _, _, _, _, _, _, _, _, _⟩
  cases st <;> simp only <;> (repeat' split) <;>
    simp only [set_state_end_z, set_state_current_step,
      set_state_step_transition_active, set_state_trajectory_down, and_self]

theorem advance_vs_untouched (c : DepthController) :
    c.advance_vs.end_z = c.end_z ∧
    c.advance_vs.current_step = c.current_step ∧
    c.advance_vs.step_transition_active = c.step_transition_active ∧
    c.advance_vs.trajectory_down = c.trajectory_down ∧
    c.advance_vs.state = c.state ∧
    c.advance_vs.command_depth = c.command_depth := by
  unfold advance_vs
  (repeat' split) <;> exact ⟨rfl, rfl, rfl, rfl, rfl, rfl⟩

theorem update_step_transition_untouched (c : DepthController) :
    c.update_step_transition.current_z = c.current_z ∧
    c.update_step_transition.end_z = c.end_z ∧
    c.update_step_transition.end_z_reached = c.end_z_reached ∧
    c.update_step_transition.state = c.state ∧
    c.update_step_transition.trajectory_down = c.trajectory_down := by
  unfold update_step_transition calculate_error_compensation
  split
  · split
    · exact ⟨rfl, rfl, rfl, rfl, rfl⟩
    · simp only
      split
      · split <;> exact ⟨rfl, rfl, rfl, rfl, rfl⟩
      · exact ⟨rfl, rfl, rfl, rfl, rfl⟩
  · exact ⟨rfl, rfl, rfl, rfl, rfl⟩

theorem handle_transitions_current_z (c : DepthController) (alt : Option ℚ) (now : ℚ) :
    (c.handle_transitions alt now).current_z = c.current_z :=
  (handle_transitions_untouched c alt now).1

theorem handle_transitions_end_z (c : DepthController) (alt : Option ℚ) (now : ℚ) :
    (c.handle_transitions alt now).end_z = c.end_z :=
  (handle_transitions_untouched c alt now).2.1

theorem handle_transitions_end_z_reached (c : DepthController) (alt : Option ℚ) (now : ℚ) :
    (c.handle_transitions alt now).end_z_reached = c.end_z_reached :=
  (handle_transitions_untouched c alt now).2.2.1

theorem handle_transitions_current_step (c : DepthController) (alt : Option ℚ) (now : ℚ) :
    (c.handle_transitions alt now).current_step = c.current_step :=
  (handle_transitions_untouched c alt now).2.2.2.1

theorem handle_transitions_step_transition_active (c : DepthController) (alt : Option ℚ) (now : ℚ) :
    (c.handle_transitions alt now).step_transition_active = c.step_transition_active :=
  (handle_transitions_untouched c alt now).2.2.2.2.1

theorem handle_transitions_trajectory_down (c : DepthController) (alt : Option ℚ) (now : ℚ) :
    (c.handle_transitions alt now).trajectory_down = c.trajectory_down :=
  (handle_transitions_untouched c alt now).2.2.2.2.2

theorem execute_current_state_end_z (cfg : Config) (c : DepthController) (now : ℚ) :
    (execute_current_state cfg c now).end_z = c.end_z :=
  (execute_current_state_untouched cfg c now).1

theorem execute_current_state_current_step (cfg : Config) (c : DepthController) (now : ℚ) :
    (execute_current_state cfg c now).current_step = c.current_step :=
  (execute_current_state_untouched cfg c now).2.1

theorem execute_current_state_step_transition_active (cfg : Config) (c : DepthController) (now : ℚ) :
    (execute_current_state cfg c now).step_transition_active = c.step_transition_active :=
  (execute_current_state_untouched cfg c now).2.2.1

theorem execute_current_state_trajectory_down (cfg : Config) (c : DepthController) (now : ℚ) :
    (execute_current_state cfg c now).trajectory_down = c.trajectory_down :=
  (execute_current_state_untouched cfg c now).2.2.2

theorem advance_vs_end_z (c : DepthController) : c.advance_vs.end_z = c.end_z :=
  (advance_vs_untouched c).1

theorem advance_vs_current_step (c : DepthController) :
    c.advance_vs.current_step = c.current_step := (advance_vs_untouched c).2.1

theorem advance_vs_step_transition_active (c : DepthController) :
    c.advance_vs.step_transition_active = c.step_transition_active :=
  (advance_vs_untouched c).2.2.1

theorem advance_vs_trajectory_down (c : DepthController) :
    c.advance_vs.trajectory_down = c.trajectory_down := (advance_vs_untouched c).2.2.2.1

theorem advance_vs_state (c : DepthController) : c.advance_vs.state = c.state :=
  (advance_vs_untouched c).2.2.2.2.1

theorem advance_vs_command_depth (c : DepthController) :
    c.advance_vs.command_depth = c.command_depth := (advance_vs_untouched c).2.2.2.2.2

theorem update_step_transition_current_z (c : DepthController) :
    c.update_step_transition.current_z = c.current_z :=
  (update_step_transition_untouched c).1

theorem update_step_transition_end_z (c : DepthController) :
    c.update_step_transition.end_z = c.end_z :=
  (update_step_transition_untouched c).2.1

theorem update_step_transition_end_z_reached (c : DepthController) :
    c.update_step_transition.end_z_reached = c.end_z_reached :=
  (update_step_transition_untouched c).2.2.1

theorem update_step_transition_state (c : DepthController) :
    c.update_step_transition.state = c.state :=
  (update_step_transition_untouched c).2.2.2.1

theorem update_step_transition_inactive (c : DepthController)
    (h : c.step_transition_active = false) : c.update_step_transition = c := by
  unfold update_step_transition
  simp [h]

theorem update_current_step_of_inactive (cfg : Config) (c : DepthController)
    (alt : Option ℚ) (now : ℚ) (h : c.step_transition_active = false) :
    (update cfg c alt now).current_step = c.current_step := by
  simp only [update, update_step_transition_inactive c h]
  (repeat' split) <;>
    simp only [set_state_current_step, advance_vs_current_step,
      execute_current_state_current_step, handle_transitions_current_step]

end DepthController

/-- Sample configuration used for concrete witnesses: envelope [0, 100],
altitude thresholds 5 (level) and 3 (ascend), wait_time 10, transition_time 1. -/
def sampleConfig : Config := ⟨0, 100, 5, 3, 10, 1⟩

/-- Sample controller for concrete witnesses: descent from 10 m to 20 m with
step 1 and no step transition (previous_step = step). -/
def sampleController : DepthController :=
  DepthController.init sampleConfig 10 20 1 1 true 1

namespace DepthController

/-- Next-state function exactly as claim C2 words the priority-ordered
rules (spec-side definition, to be compared with handle_transitions). The
wait rule reads the recorded state_start_time; when none has been recorded
the elapsed-time condition cannot hold. -/
def claimed_next_state (s : State) (altitude : Option ℚ) (t_asc t_lvl : ℚ)
    (td : Bool) (wait_done : Bool) (rejoin : Bool) : State :=
  match altitude with
  | none => if s ≠ State.NORMAL then State.NORMAL else s
  | some a =>
    if a < t_asc then State.ASCEND
    else if td = true ∧ a < t_lvl then State.HOLD
    else
      match s with
      | State.ASCEND => State.WAIT
      | State.HOLD => State.WAIT
      | State.WAIT => if wait_done then State.RETURN else State.WAIT
      | State.RETURN => if rejoin then State.NORMAL else State.RETURN
      | State.NORMAL => State.NORMAL

end DepthController

/-- C2: the per-tick transition step of _handle_transitions implements
exactly the claimed priority-ordered rules: absent altitude forces NORMAL
(from any non-NORMAL state), altitude below the ascend threshold forces
ASCEND from any state, a downward trajectory below the level threshold
forces HOLD, and otherwise ASCEND and HOLD go to WAIT, WAIT goes to RETURN
iff now - state_start_time >= wait_time, RETURN goes to NORMAL iff
command_depth >= current_z, and NORMAL stays NORMAL. -/
theorem handle_transitions_matches_rules (c : DepthController) (alt : Option ℚ) (now : ℚ) :
    (c.handle_transitions alt now).state =
      DepthController.claimed_next_state c.state alt c.altitude_threshold_ascend
        c.altitude_threshold_level c.trajectory_down
        (c.state_start_time.any fun t => decide (now - t ≥ c.wait_time))
        (decide (c.command_depth ≥ c.current_z)) := by
  rcases alt with _ | a
  · by_cases h : c.state = State.NORMAL <;>
      simp [DepthController.handle_transitions, DepthController.claimed_next_state, h,
        DepthController.set_state_state]
  · by_cases h1 : a < c.altitude_threshold_ascend
    · simp [DepthController.handle_transitions, DepthController.claimed_next_state, h1,
        DepthController.set_state_state]
    · by_cases h2 : c.trajectory_down = true ∧ a < c.altitude_threshold_level
      · simp [DepthController.handle_transitions, DepthController.claimed_next_state, h1, h2,
          DepthController.set_state_state]
      · rcases hs : c.state <;>
          rcases hsst : c.state_start_time with _ | t <;>
          simp [DepthController.handle_transitions, DepthController.claimed_next_state,
            DepthController.wait_finished, DepthController.return_caught_vs, h1, h2, hs, hsst,
            DepthController.set_state_state] <;>
          split <;>
          first
            | exact hs
            | simp [DepthController.set_state_state]

/-- C3: send_z_command accepts an in-envelope depth (recording it as the
last valid depth and posting it), substitutes the last valid depth for an
out-of-envelope depth when one exists, and rejects an out-of-envelope depth
without posting anything and without changing the stored depth when none
exists. -/
theorem send_z_command_cases (cfg : Config) (last : Option ℚ) (z : ℚ) :
    (cfg.min_depth ≤ z ∧ z ≤ cfg.max_depth →
       Backseat.send_z_command cfg last z = (some z, some z)) ∧
    ((z < cfg.min_depth ∨ z > cfg.max_depth) →
       (∀ v, last = some v → Backseat.send_z_command cfg last z = (some v, some v)) ∧
       (last = none → Backseat.send_z_command cfg last z = (none, none))) := by
  constructor
  · rintro ⟨h1, h2⟩
    have hin : ¬(z < cfg.min_depth ∨ z > cfg.max_depth) := by
      push_neg
      exact ⟨h1, h2⟩
    simp [Backseat.send_z_command, hin]
  · intro hout
    constructor
    · rintro v rfl
      simp [Backseat.send_z_command, hout]
    · rintro rfl
      simp [Backseat.send_z_command, hout]

/-- Witness for C3 at the scenario of spec item S6: envelope [0, 100],
first a rejected 120 with no memory, then an accepted 50, then a 120
answered by substituting the remembered 50. -/
theorem send_z_command_cases_witness :
    Backseat.send_z_command sampleConfig none 120 = (none, none) ∧
    Backseat.send_z_command sampleConfig none 50 = (some 50, some 50) ∧
    Backseat.send_z_command sampleConfig (some 50) 120 = (some 50, some 50) :=
  ⟨((send_z_command_cases sampleConfig none 120).2 (by norm_num [sampleConfig])).2 rfl,
   (send_z_command_cases sampleConfig none 50).1 (by norm_num [sampleConfig]),
   ((send_z_command_cases sampleConfig (some 50) 120).2
      (by norm_num [sampleConfig])).1 50 rfl⟩

/-- Counterexample to C9 as stated: entering RETURN does not clear
state_start_time. A controller that entered WAIT at time 5 and then enters
RETURN still carries state_start_time = 5. -/
theorem on_enter_return_cex :
    ((sampleController.set_state State.WAIT 5).set_state State.RETURN 100).state_start_time
      = some 5 ∧ some (5 : ℚ) ≠ none := by
  constructor
  · rfl
  · simp

/-- C9 amended: entry actions on state transitions (s ≠ current state):
entering ASCEND sets command_depth := current_z (and clears
state_start_time); entering WAIT sets state_start_time := now and
wait_from_ascend := (previous state = ASCEND); entering HOLD and entering
NORMAL clear state_start_time; entering RETURN leaves state_start_time
unchanged (the claim said RETURN clears it, but _on_enter_state has no
assignment on its RETURN branch). -/
theorem on_enter_state_actions_amended (c : DepthController) (now : ℚ) :
    (c.state ≠ State.ASCEND →
       (c.set_state State.ASCEND now).command_depth = c.current_z ∧
       (c.set_state State.ASCEND now).state_start_time = none) ∧
    (c.state ≠ State.WAIT →
       (c.set_state State.WAIT now).state_start_time = some now ∧
       (c.set_state State.WAIT now).wait_from_ascend = decide (c.state = State.ASCEND)) ∧
    (c.state ≠ State.HOLD → (c.set_state State.HOLD now).state_start_time = none) ∧
    (c.state ≠ State.NORMAL → (c.set_state State.NORMAL now).state_start_time = none) ∧
    (c.state ≠ State.RETURN →
       (c.set_state State.RETURN now).state_start_time = c.state_start_time) := by
  refine ⟨?_, ?_, ?_, ?_, ?_⟩ <;> intro h <;>
    simp [DepthController.set_state, DepthController.on_enter_state, h]

/-- Witness for the amended C9 on the sample controller (state NORMAL). -/
theorem on_enter_state_actions_amended_witness :
    (sampleController.set_state State.ASCEND 7).command_depth = sampleController.current_z ∧
    (sampleController.set_state State.ASCEND 7).state_start_time = none ∧
    (sampleController.set_state State.WAIT 7).state_start_time = some 7 ∧
    (sampleController.set_state State.RETURN 7).state_start_time
      = sampleController.state_start_time := by
  have h := on_enter_state_actions_amended sampleController 7
  have h1 := h.1 (by decide)
  have h2 := h.2.1 (by decide)
  have h5 := h.2.2.2.2 (by decide)
  exact ⟨h1.1, h1.2, h2.1, h5⟩

/-- Invariant behind C10: if the stored _last_valid_depth lies in the
envelope whenever present, then every setpoint run_sends posts lies in the
envelope and so does the final stored depth. -/
theorem run_sends_inv (cfg : Config) (zs : List ℚ) :
    ∀ last : Option ℚ,
      (∀ v, last = some v → cfg.min_depth ≤ v ∧ v ≤ cfg.max_depth) →
      (∀ p ∈ (Backseat.run_sends cfg last zs).1,
          cfg.min_depth ≤ p ∧ p ≤ cfg.max_depth) ∧
      (∀ v, (Backseat.run_sends cfg last zs).2 = some v →
          cfg.min_depth ≤ v ∧ v ≤ cfg.max_depth) := by
  induction zs with
  | nil =>
    intro last hlast
    exact ⟨by simp [Backseat.run_sends], by simpa [Backseat.run_sends] using hlast⟩
  | cons z zs ih =>
    intro last hlast
    by_cases hz : z < cfg.min_depth ∨ z > cfg.max_depth
    · rcases hl : last with _ | v
      · have h := ih none (by simp)
        simp only [Backseat.run_sends, Backseat.send_z_command, if_pos hz]
        simpa using h
      · have hv := hlast v hl
        have h := ih (some v) (by rintro w ⟨rfl⟩; exact hv)
        simp only [Backseat.run_sends, Backseat.send_z_command, if_pos hz]
        constructor
        · intro p hp
          simp only [Option.toList_some, List.cons_append, List.nil_append,
            List.mem_cons] at hp
          rcases hp with rfl | hp
          · exact hv
          · exact h.1 p hp
        · exact h.2
    · push_neg at hz
      have hzin : cfg.min_depth ≤ z ∧ z ≤ cfg.max_depth := ⟨le_of_not_lt (by exact fun h => absurd h (not_lt.mpr hz.1)), hz.2⟩
      have h := ih (some z) (by rintro w ⟨rfl⟩; exact ⟨hz.1, hz.2⟩)
      simp only [Backseat.run_sends, Backseat.send_z_command, if_neg (by push_neg; exact ⟨hz.1, hz.2⟩ : ¬(z < cfg.min_depth ∨ z > cfg.max_depth))]
      constructor
      · intro p hp
        simp only [Option.toList_some, List.cons_append, List.nil_append,
          List.mem_cons] at hp
        rcases hp with rfl | hp
        · exact ⟨hz.1, hz.2⟩
        · exact h.1 p hp
      · exact h.2

/-- C10: starting from the initial _last_valid_depth = None, every
zSetpoint actually posted over any sequence of send_z_command calls lies in
[min_depth, max_depth], and _last_valid_depth, once set, always holds a
value that passed the envelope check. -/
theorem posted_setpoints_in_envelope (cfg : Config) (zs : List ℚ) :
    (∀ p ∈ (Backseat.run_sends cfg none zs).1,
        cfg.min_depth ≤ p ∧ p ≤ cfg.max_depth) ∧
    (∀ v, (Backseat.run_sends cfg none zs).2 = some v →
        cfg.min_depth ≤ v ∧ v ≤ cfg.max_depth) :=
  run_sends_inv cfg zs none (by simp)

/-- Witness for C10: a posted setpoint from the run [50, 120] under the
sample envelope [0, 100] is within the envelope. -/
theorem posted_setpoints_in_envelope_witness :
    sampleConfig.min_depth ≤ 50 ∧ (50 : ℚ) ≤ sampleConfig.max_depth :=
  (posted_setpoints_in_envelope sampleConfig [50, 120]).1 50
    (by norm_num [Backseat.run_sends, Backseat.send_z_command, sampleConfig])

namespace DepthController

theorem update_current_step_eq_ust (cfg : Config) (c : DepthController)
    (alt : Option ℚ) (now : ℚ) :
    (update cfg c alt now).current_step = c.update_step_transition.current_step := by
  simp only [update]
  (repeat' split) <;>
    simp only [set_state_current_step, advance_vs_current_step,
      execute_current_state_current_step, handle_transitions_current_step]

theorem update_step_transition_active_eq_ust (cfg : Config) (c : DepthController)
    (alt : Option ℚ) (now : ℚ) :
    (update cfg c alt now).step_transition_active
      = c.update_step_transition.step_transition_active := by
  simp only [update]
  (repeat' split) <;>
    simp only [set_state_step_transition_active, advance_vs_step_transition_active,
      execute_current_state_step_transition_active, handle_transitions_step_transition_active]

theorem linspace_get_zero (a b : ℚ) (n : ℕ) (h : 1 ≤ n) :
    (linspace a b n).get? 0 = some a := by
  unfold linspace
  rcases n with _ | _ | n
  · omega
  · simp
  · rw [if_neg (by omega : ¬n + 1 + 1 = 0), if_neg (by omega : ¬n + 1 + 1 = 1),
      List.get?_map, List.get?_range (by omega : 0 < n + 1 + 1)]
    norm_num

theorem clamp_depth_mem (cfg : Config) (d : ℚ) (h : cfg.min_depth ≤ cfg.max_depth) :
    cfg.min_depth ≤ clamp_depth cfg d ∧ clamp_depth cfg d ≤ cfg.max_depth := by
  unfold clamp_depth
  exact ⟨le_max_left _ _, max_le h (min_le_right _ _)⟩

end DepthController

/-- C5: when the step-transition sequence is exhausted, the controller
computes accumulated_error = target_step * N - sum(sequence) with N the
sequence length, remaining_steps = ceil |((end_z - planned_z) -
target_step * N) / target_step| (planned_z holds the constructor's
start_z and is never modified); if remaining_steps > 0 the new current_step
is target_step + accumulated_error / remaining_steps with
error_compensation_active set, otherwise target_step unchanged; and once
the transition is inactive no later update ever changes current_step. The
hypothesis target_step = original_target_step records that neither field
has been modified since construction, which holds on every run reaching
the exhaustion tick. -/
theorem error_compensation_formula (c : DepthController)
    (hact : c.step_transition_active = true)
    (hexh : c.transition_list.get? c.step_iterator_idx = none)
    (hts : c.target_step = c.original_target_step) :
    (0 < (⌈|((c.end_z - c.planned_z) - c.target_step * (c.transition_list.length : ℚ))
            / c.target_step|⌉ : ℤ) →
       c.update_step_transition.current_step
         = c.target_step
           + (c.target_step * (c.transition_list.length : ℚ) - c.transition_list.sum)
             / ((⌈|((c.end_z - c.planned_z) - c.target_step * (c.transition_list.length : ℚ))
                  / c.target_step|⌉ : ℤ) : ℚ) ∧
       c.update_step_transition.error_compensation_active = true) ∧
    ((⌈|((c.end_z - c.planned_z) - c.target_step * (c.transition_list.length : ℚ))
        / c.target_step|⌉ : ℤ) ≤ 0 →
       c.update_step_transition.current_step = c.target_step) ∧
    c.update_step_transition.step_transition_active = false ∧
    (∀ (cfg : Config) (d : DepthController) (alt : Option ℚ) (now : ℚ),
        d.step_transition_active = false →
        (DepthController.update cfg d alt now).current_step = d.current_step) := by
  rw [hts]
  have hu : c.update_step_transition
      = DepthController.calculate_error_compensation { c with step_transition_active := false } := by
    unfold DepthController.update_step_transition
    rw [if_pos hact]
    rw [hexh]
  rw [hu]
  unfold DepthController.calculate_error_compensation
  dsimp only
  by_cases hg : |c.end_z - c.planned_z
      - c.original_target_step * (c.transition_list.length : ℚ)| > 0 ∧
      |c.original_target_step| > 0
  · have hne1 : c.end_z - c.planned_z
        - c.original_target_step * (c.transition_list.length : ℚ) ≠ 0 := by
      have := hg.1
      exact abs_pos.mp this
    have hne2 : c.original_target_step ≠ 0 := abs_pos.mp hg.2
    have hdivne : (c.end_z - c.planned_z
        - c.original_target_step * (c.transition_list.length : ℚ))
          / c.original_target_step ≠ 0 := div_ne_zero hne1 hne2
    have hpos : 0 < (⌈|(c.end_z - c.planned_z
        - c.original_target_step * (c.transition_list.length : ℚ))
          / c.original_target_step|⌉ : ℤ) :=
      Int.ceil_pos.mpr (abs_pos.mpr hdivne)
    rw [if_pos hg, if_pos hpos]
    refine ⟨fun _ => ⟨by ring_nf, rfl⟩, fun hle => absurd hpos (not_lt.mpr hle), rfl,
      fun cfg d alt now hd => DepthController.update_current_step_of_inactive cfg d alt now hd⟩
  · have hzero : (⌈|(c.end_z - c.planned_z
        - c.original_target_step * (c.transition_list.length : ℚ))
          / c.original_target_step|⌉ : ℤ) = 0 := by
      rcases not_and_or.mp hg with habs | hts0
      · have h0 : c.end_z - c.planned_z
            - c.original_target_step * (c.transition_list.length : ℚ) = 0 := by
          by_contra hne
          exact habs (abs_pos.mpr hne)
        rw [h0]
        simp
      · have h0 : c.original_target_step = 0 := by
          by_contra hne
          exact hts0 (abs_pos.mpr hne)
        rw [h0]
        simp
    rw [if_neg hg]
    refine ⟨fun hlt => absurd hzero (by omega), fun _ => rfl, rfl,
      fun cfg d alt now hd => DepthController.update_current_step_of_inactive cfg d alt now hd⟩


/-- Witness for C5 at an exhausted transition of the sample controller
(sequence [1] already consumed): remaining_steps = 9 > 0 and error
compensation activates. -/
theorem error_compensation_formula_witness :
    ({ sampleController with
        step_transition_active := true
        step_iterator_idx := 1 } : DepthController).update_step_transition.error_compensation_active
      = true := by
  have h := error_compensation_formula
    { sampleController with
        step_transition_active := true
        step_iterator_idx := 1 }
    (by rfl)
    (by decide)
    (by rfl)
  exact (h.1 (by norm_num [sampleController, sampleConfig, DepthController.init, linspace])).2

/-- C7: step continuity across controller handoff. On every exit path of
the VS loop the manager's last_step is set to the departing controller's
final current_step; a DepthController constructed with previous_step = p
has current_step = p immediately and still has current_step = p after its
first tick (p is the first element of its transition sequence, provided
transition_time ≥ 1); hence a successor controller built from the departing
controller's final step starts with zero step discontinuity. -/
theorem step_continuity_handoff (cfg : Config) (mgr : PhaseManager)
    (cA : DepthController) (alts : ℕ → Option ℚ) (nows : ℕ → ℚ) (n : ℕ) (e : ExitPath)
    (start_z end_z step mas : ℚ) (td : Bool) (alt0 : Option ℚ) (now0 : ℚ) (p : ℚ)
    (htt : 1 ≤ cfg.transition_time)
    (hp : p = (DepthController.run cfg alts nows cA n).current_step) :
    (virtual_slope_loop_exit mgr (DepthController.run cfg alts nows cA n) e).last_step
      = (DepthController.run cfg alts nows cA n).current_step ∧
    (DepthController.init cfg start_z end_z step mas td p).current_step = p ∧
    (DepthController.update cfg (DepthController.init cfg start_z end_z step mas td p)
        alt0 now0).current_step = p ∧
    |(DepthController.init cfg start_z end_z step mas td p).current_step
      - (DepthController.run cfg alts nows cA n).current_step| = 0 := by
  refine ⟨rfl, rfl, ?_, ?_⟩
  · rw [DepthController.update_current_step_eq_ust]
    by_cases hps : p = step
    · rw [DepthController.update_step_transition_inactive]
      · rfl
      · simp [DepthController.init, hps]
    · unfold DepthController.update_step_transition
      rw [if_pos (by simp [DepthController.init, hps])]
      have hl : (DepthController.init cfg start_z end_z step mas td p).transition_list.get?
          (DepthController.init cfg start_z end_z step mas td p).step_iterator_idx
            = some p := by
        show (linspace p step cfg.transition_time).get? 0 = some p
        exact DepthController.linspace_get_zero p step cfg.transition_time htt
      rw [hl]
  · rw [hp]
    show |(DepthController.run cfg alts nows cA n).current_step
      - (DepthController.run cfg alts nows cA n).current_step| = 0
    simp

/-- Witness for C7: manager ⟨0⟩, exiting by cancellation after 0 ticks of
the sample controller (final current_step 1), handing previous_step 1 to a
successor under the sample configuration. -/
theorem step_continuity_handoff_witness :
    (virtual_slope_loop_exit ⟨0⟩
        (DepthController.run sampleConfig (fun _ => none) (fun _ => 0) sampleController 0)
        ExitPath.cancelled).last_step
      = (DepthController.run sampleConfig (fun _ => none) (fun _ => 0) sampleController 0).current_step ∧
    (DepthController.init sampleConfig 20 30 2 1 true 1).current_step = 1 ∧
    (DepthController.update sampleConfig (DepthController.init sampleConfig 20 30 2 1 true 1)
        (some 8) 0).current_step = 1 ∧
    |(DepthController.init sampleConfig 20 30 2 1 true 1).current_step
      - (DepthController.run sampleConfig (fun _ => none) (fun _ => 0) sampleController 0).current_step|
        = 0 :=
  step_continuity_handoff sampleConfig ⟨0⟩ sampleController (fun _ => none) (fun _ => 0) 0
    ExitPath.cancelled 20 30 2 1 true (some 8) 0 1 (by norm_num [sampleConfig]) (by rfl)

/-- Counterexample to C8 as stated: the line $NAVIGATION,1,2,3,4,5,6,7,8,9
carries only 9 data fields, fewer than the 10 the claim requires for
publication, yet parse_navigation publishes a frame for it (the code
counts the $NAVIGATION header token towards its ≥ 10 check). -/
theorem publish_threshold_cex :
    (DesBridge.parse_navigation DesBridge.parse_decimal
        "$NAVIGATION,1,2,3,4,5,6,7,8,9".toList).isSome = true ∧
    (DesBridge.split_char ',' "$NAVIGATION,1,2,3,4,5,6,7,8,9".toList).length - 1 = 9 ∧
    ¬(10 ≤ (DesBridge.split_char ',' "$NAVIGATION,1,2,3,4,5,6,7,8,9".toList).length - 1) := by
  exact ⟨by decide, by decide, by decide⟩

/-- C8 amended: a $NAVIGATION telegram line is published iff, after
stripping any *checksum suffix, it has at least 10 comma-separated fields
counting the $NAVIGATION header token, i.e. at least 9 data fields (the
claim said at least 10 data fields); data field 5 maps to altitude and
data field 23 to heading; safe_float records empty, UNDEF
(case-insensitive), whitespace-only, and unparseable fields as absent; and
a dropped line leaves the stored snapshot unchanged. -/
theorem parse_navigation_amended (pf : List Char → Option ℚ) (msg : List Char)
    (store : Option DesBridge.NavigationData) :
    ((DesBridge.parse_navigation pf msg).isSome = true ↔
        10 ≤ (DesBridge.split_char ',' (msg.takeWhile fun ch => ch ≠ '*')).length) ∧
    ((DesBridge.parse_navigation pf msg).map DesBridge.NavigationData.altitude
        = if 10 ≤ (DesBridge.split_char ',' (msg.takeWhile fun ch => ch ≠ '*')).length
          then some (DesBridge.safe_float pf
            ((DesBridge.split_char ',' (msg.takeWhile fun ch => ch ≠ '*')).getD 5 []))
          else none) ∧
    ((DesBridge.parse_navigation pf msg).map DesBridge.NavigationData.heading
        = if 10 ≤ (DesBridge.split_char ',' (msg.takeWhile fun ch => ch ≠ '*')).length
          then some
            (if (DesBridge.split_char ',' (msg.takeWhile fun ch => ch ≠ '*')).length > 23
             then DesBridge.safe_float pf
               ((DesBridge.split_char ',' (msg.takeWhile fun ch => ch ≠ '*')).getD 23 [])
             else none)
          else none) ∧
    (∀ v : List Char, DesBridge.safe_float pf v = none ↔
        (v = [] ∨ v.map Char.toUpper = "UNDEF".toList ∨
         v.all Char.isWhitespace = true ∨ pf v = none)) ∧
    (DesBridge.parse_navigation pf msg = none →
        DesBridge.process_message pf store msg = store) := by
  refine ⟨?_, ?_, ?_, ?_, ?_⟩
  · unfold DesBridge.parse_navigation
    by_cases h : (DesBridge.split_char ',' (msg.takeWhile fun ch => ch ≠ '*')).length < 10
    · simp only [if_pos h]
      constructor
      · intro hfalse
        simp at hfalse
      · intro hge
        omega
    · simp only [if_neg h]
      constructor
      · intro _
        omega
      · intro _
        rfl
  · unfold DesBridge.parse_navigation
    by_cases h : (DesBridge.split_char ',' (msg.takeWhile fun ch => ch ≠ '*')).length < 10
    · simp only [if_pos h]
      rw [if_neg (by omega)]
      rfl
    · simp only [if_neg h]
      rw [if_pos (by omega :
        10 ≤ (DesBridge.split_char ',' (msg.takeWhile fun ch => ch ≠ '*')).length)]
      rw [if_pos (by omega :
        (DesBridge.split_char ',' (msg.takeWhile fun ch => ch ≠ '*')).length > 5)]
      rfl
  · unfold DesBridge.parse_navigation
    by_cases h : (DesBridge.split_char ',' (msg.takeWhile fun ch => ch ≠ '*')).length < 10
    · simp only [if_pos h]
      rw [if_neg (by omega)]
      rfl
    · simp only [if_neg h]
      rw [if_pos (by omega :
        10 ≤ (DesBridge.split_char ',' (msg.takeWhile fun ch => ch ≠ '*')).length)]
      rfl
  · intro v
    unfold DesBridge.safe_float
    by_cases h1 : v = []
    · rw [if_pos h1]
      exact ⟨fun _ => Or.inl h1, fun _ => rfl⟩
    · rw [if_neg h1]
      by_cases h2 : v.map Char.toUpper = "UNDEF".toList
      · rw [if_pos h2]
        exact ⟨fun _ => Or.inr (Or.inl h2), fun _ => rfl⟩
      · rw [if_neg h2]
        by_cases h3 : v.all Char.isWhitespace = true
        · rw [if_pos h3]
          exact ⟨fun _ => Or.inr (Or.inr (Or.inl h3)), fun _ => rfl⟩
        · rw [if_neg h3]
          constructor
          · intro h4
            exact Or.inr (Or.inr (Or.inr h4))
          · intro h4
            rcases h4 with h4 | h4 | h4 | h4
            · exact absurd h4 h1
            · exact absurd h4 h2
            · exact absurd h4 h3
            · exact h4
  · intro hdrop
    unfold DesBridge.process_message
    by_cases h1 : ("$HBEAT".toList.isPrefixOf msg : Bool) = true
    · rw [if_pos h1]
    · rw [if_neg h1]
      by_cases h2 : ("$NAVIGATION".toList.isPrefixOf msg : Bool) = true
      · rw [if_pos h2, hdrop]
      · rw [if_neg h2]

/-- Witness for the amended C8: a short $NAVIGATION line (4 tokens) parses
to none, so processing it leaves an empty snapshot store unchanged. -/
theorem parse_navigation_amended_witness :
    DesBridge.process_message DesBridge.parse_decimal none "$NAVIGATION,1,2".toList = none :=
  (parse_navigation_amended DesBridge.parse_decimal "$NAVIGATION,1,2".toList none).2.2.2.2
    (by decide)

/-- Counterexample to C1 as stated: with envelope [0, 100], a NORMAL tick
of a controller descending from 150 m to 200 m stores and emits
command_depth = 150, which exceeds max_depth = 100; _state_normal does not
clamp the emitted command to the envelope. -/
theorem command_depth_envelope_cex :
    (DepthController.update sampleConfig
        (DepthController.init sampleConfig 150 200 1 1 true 1) none 0).command_depth = 150 ∧
    ¬(sampleConfig.min_depth
        ≤ (DepthController.update sampleConfig
            (DepthController.init sampleConfig 150 200 1 1 true 1) none 0).command_depth ∧
      (DepthController.update sampleConfig
          (DepthController.init sampleConfig 150 200 1 1 true 1) none 0).command_depth
        ≤ sampleConfig.max_depth) := by
  have h : (DepthController.update sampleConfig
      (DepthController.init sampleConfig 150 200 1 1 true 1) none 0).command_depth = 150 := by
    norm_num [DepthController.update, DepthController.update_step_transition,
      DepthController.handle_transitions, DepthController.execute_current_state,
      DepthController.state_normal, DepthController.advance_vs, DepthController.init,
      DepthController.set_state, DepthController.on_enter_state, linspace, sampleConfig]
  refine ⟨h, ?_⟩
  rw [h]
  norm_num [sampleConfig]

/-- C1 amended: the controller clamps the emitted command_depth into
[min_depth, max_depth] on ticks whose post-transition state is ASCEND or a
WAIT entered from ASCEND (given min_depth ≤ max_depth); in the remaining
states (NORMAL, HOLD, RETURN) the emitted command_depth is not clamped and
can leave the envelope — there the envelope is enforced only at the send
boundary, where send_z_command substitutes the last valid depth or
rejects. -/
theorem command_depth_envelope_amended (cfg : Config) (c : DepthController)
    (alt : Option ℚ) (now : ℚ) (henv : cfg.min_depth ≤ cfg.max_depth)
    (h : (c.update_step_transition.handle_transitions alt now).state = State.ASCEND
       ∨ ((c.update_step_transition.handle_transitions alt now).state = State.WAIT
          ∧ (c.update_step_transition.handle_transitions alt now).wait_from_ascend = true)) :
    cfg.min_depth ≤ (DepthController.update cfg c alt now).command_depth ∧
    (DepthController.update cfg c alt now).command_depth ≤ cfg.max_depth := by
  simp only [DepthController.update]
  rcases h with hA | ⟨hW, hF⟩
  · rw [if_neg (by rw [hA]; simp)]
    rw [DepthController.advance_vs_command_depth]
    unfold DepthController.execute_current_state
    rw [hA]
    exact DepthController.clamp_depth_mem cfg _ henv
  · rw [if_neg (by rw [hW]; simp)]
    rw [DepthController.advance_vs_command_depth]
    unfold DepthController.execute_current_state
    rw [hW]
    unfold DepthController.state_wait
    rw [if_pos hF]
    exact DepthController.clamp_depth_mem cfg _ henv

/-- Witness for the amended C1: a tick of the sample controller at
altitude 1 m (below the ascend threshold 3 m) enters ASCEND and emits a
command_depth inside [0, 100]. -/
theorem command_depth_envelope_amended_witness :
    sampleConfig.min_depth
      ≤ (DepthController.update sampleConfig sampleController (some 1) 0).command_depth ∧
    (DepthController.update sampleConfig sampleController (some 1) 0).command_depth
      ≤ sampleConfig.max_depth :=
  command_depth_envelope_amended sampleConfig sampleController (some 1) 0
    (by norm_num [sampleConfig])
    (Or.inl (by
      rw [DepthController.update_step_transition_inactive _ (by decide)]
      rw [DepthController.handle_transitions]
      rw [if_pos (by norm_num [sampleController, DepthController.init, sampleConfig])]
      exact DepthController.set_state_state _ _ _))

namespace DepthController

theorem state_normal_Q (c : DepthController) :
    ((c.end_z_reached = true → c.current_z = c.end_z) →
      (c.state_normal.end_z_reached = true →
        c.state_normal.current_z = c.state_normal.end_z)) ∧
    (c.end_z_reached = true → c.state_normal.end_z_reached = true) := by
  unfold state_normal
  by_cases hr : c.end_z_reached = true
  · rw [if_pos hr]
    exact ⟨fun hq _ => hq hr, fun _ => hr⟩
  · rw [if_neg hr]
    constructor
    · intro _
      split
      · split
        · intro _
          rfl
        · intro hfalse
          exact absurd hfalse hr
      · split
        · intro _
          rfl
        · intro hfalse
          exact absurd hfalse hr
    · intro habs
      exact absurd habs hr

theorem execute_Q (cfg : Config) (c : DepthController) (now : ℚ) :
    ((c.end_z_reached = true → c.current_z = c.end_z) →
      ((execute_current_state cfg c now).end_z_reached = true →
        (execute_current_state cfg c now).current_z
          = (execute_current_state cfg c now).end_z)) ∧
    (c.end_z_reached = true →
      (execute_current_state cfg c now).end_z_reached = true) := by
  unfold execute_current_state state_hold state_ascend state_wait state_return
  (repeat' split) <;>
    first
      | exact state_normal_Q c
      | exact ⟨fun hq h => hq h, fun h => h⟩
      | (simp only [set_state_end_z_reached, set_state_current_z, set_state_end_z]
         exact ⟨fun hq h => hq h, fun h => h⟩)

theorem advance_vs_Q (c : DepthController) :
    ((c.end_z_reached = true → c.current_z = c.end_z) →
      (c.advance_vs.end_z_reached = true →
        c.advance_vs.current_z = c.advance_vs.end_z)) ∧
    (c.end_z_reached = true → c.advance_vs.end_z_reached = true) := by
  unfold advance_vs
  by_cases hr : c.end_z_reached = true
  · rw [if_pos hr]
    exact ⟨fun hq h => hq h, fun h => h⟩
  · rw [if_neg hr]
    constructor
    · intro _
      (repeat' split) <;>
        first
          | (intro _; rfl)
          | (intro hfalse; exact absurd hfalse hr)
    · intro habs
      exact absurd habs hr

theorem update_reached_invariant (cfg : Config) (c : DepthController)
    (alt : Option ℚ) (now : ℚ) :
    ((c.end_z_reached = true → c.current_z = c.end_z) →
      ((update cfg c alt now).end_z_reached = true →
        (update cfg c alt now).current_z = (update cfg c alt now).end_z)) ∧
    (c.end_z_reached = true → (update cfg c alt now).end_z_reached = true) := by
  have hq1 : (c.end_z_reached = true → c.current_z = c.end_z) →
      (c.update_step_transition.end_z_reached = true →
        c.update_step_transition.current_z = c.update_step_transition.end_z) := by
    intro hd
    rw [update_step_transition_end_z_reached, update_step_transition_current_z,
      update_step_transition_end_z]
    exact hd
  have hr1 : c.end_z_reached = true → c.update_step_transition.end_z_reached = true := by
    intro h
    rw [update_step_transition_end_z_reached]
    exact h
  have hq2 : ∀ d : DepthController, (d.end_z_reached = true → d.current_z = d.end_z) →
      ((d.handle_transitions alt now).end_z_reached = true →
        (d.handle_transitions alt now).current_z = (d.handle_transitions alt now).end_z) := by
    intro d hd
    rw [handle_transitions_end_z_reached, handle_transitions_current_z,
      handle_transitions_end_z]
    exact hd
  have hr2 : ∀ d : DepthController, d.end_z_reached = true →
      (d.handle_transitions alt now).end_z_reached = true := by
    intro d h
    rw [handle_transitions_end_z_reached]
    exact h
  simp only [update]
  split
  · split
    · constructor
      · intro hq
        rw [set_state_end_z_reached, set_state_current_z, set_state_end_z]
        exact (advance_vs_Q _).1 ((execute_Q cfg _ now).1 (hq2 _ (hq1 hq)))
      · intro hr
        rw [set_state_end_z_reached]
        exact (advance_vs_Q _).2 ((execute_Q cfg _ now).2 (hr2 _ (hr1 hr)))
    · exact ⟨fun hq => (advance_vs_Q _).1 ((execute_Q cfg _ now).1 (hq2 _ (hq1 hq))),
        fun hr => (advance_vs_Q _).2 ((execute_Q cfg _ now).2 (hr2 _ (hr1 hr)))⟩
  · exact ⟨fun hq => (advance_vs_Q _).1 ((execute_Q cfg _ now).1 (hq2 _ (hq1 hq))),
      fun hr => (advance_vs_Q _).2 ((execute_Q cfg _ now).2 (hr2 _ (hr1 hr)))⟩

end DepthController

/-- C6: once a constructed controller's end_z_reached becomes true it stays
true, and from then on every update leaves current_z equal to end_z, in
every safety state and for every altitude and wall-clock input. -/
theorem end_z_reached_persists (cfg : Config) (start_z end_z step mas : ℚ)
    (td : Bool) (prev : ℚ) (alts : ℕ → Option ℚ) (nows : ℕ → ℚ) (n m : ℕ)
    (hnm : n ≤ m)
    (h : (DepthController.run cfg alts nows
        (DepthController.init cfg start_z end_z step mas td prev) n).end_z_reached = true) :
    (DepthController.run cfg alts nows
        (DepthController.init cfg start_z end_z step mas td prev) m).end_z_reached = true ∧
    (DepthController.run cfg alts nows
        (DepthController.init cfg start_z end_z step mas td prev) m).current_z
      = (DepthController.run cfg alts nows
          (DepthController.init cfg start_z end_z step mas td prev) m).end_z := by
  have hQ : ∀ k, ((DepthController.run cfg alts nows
      (DepthController.init cfg start_z end_z step mas td prev) k).end_z_reached = true →
      (DepthController.run cfg alts nows
          (DepthController.init cfg start_z end_z step mas td prev) k).current_z
        = (DepthController.run cfg alts nows
            (DepthController.init cfg start_z end_z step mas td prev) k).end_z) := by
    intro k
    induction k with
    | zero =>
      intro habs
      exact absurd habs (by simp [DepthController.run, DepthController.init])
    | succ k ih =>
      exact (DepthController.update_reached_invariant cfg _ (alts k) (nows k)).1 ih
  have hmono : ∀ k, n ≤ k → (DepthController.run cfg alts nows
      (DepthController.init cfg start_z end_z step mas td prev) k).end_z_reached = true := by
    intro k hk
    induction k, hk using Nat.le_induction with
    | base => exact h
    | succ k hk ih =>
      exact (DepthController.update_reached_invariant cfg _ (alts k) (nows k)).2 ih
  exact ⟨hmono m hnm, hQ m (hmono m hnm)⟩

/-- Witness for C6: a controller descending 10 m → 20 m with step 15
reaches end_z on its first tick; at tick 3 it still reports end_z_reached
with current_z = end_z. -/
theorem end_z_reached_persists_witness :
    (DepthController.run sampleConfig (fun _ => none) (fun _ => 0)
        (DepthController.init sampleConfig 10 20 15 1 true 15) 3).end_z_reached = true ∧
    (DepthController.run sampleConfig (fun _ => none) (fun _ => 0)
        (DepthController.init sampleConfig 10 20 15 1 true 15) 3).current_z
      = (DepthController.run sampleConfig (fun _ => none) (fun _ => 0)
          (DepthController.init sampleConfig 10 20 15 1 true 15) 3).end_z :=
  end_z_reached_persists sampleConfig 10 20 15 1 true 15 (fun _ => none) (fun _ => 0) 1 3
    (by omega)
    (by norm_num [DepthController.run, DepthController.update,
      DepthController.update_step_transition, DepthController.handle_transitions,
      DepthController.execute_current_state, DepthController.state_normal,
      DepthController.advance_vs, DepthController.init, DepthController.set_state,
      DepthController.on_enter_state, linspace, sampleConfig])

namespace DepthController

theorem handle_transitions_normal_id (c : DepthController) (a now : ℚ)
    (hs : c.state = State.NORMAL)
    (h1 : ¬a < c.altitude_threshold_ascend)
    (h2 : ¬(c.trajectory_down = true ∧ a < c.altitude_threshold_level)) :
    c.handle_transitions (some a) now = c := by
  unfold handle_transitions
  dsimp only
  rw [if_neg h1, if_neg h2, hs]

theorem execute_normal (cfg : Config) (c : DepthController) (now : ℚ)
    (hs : c.state = State.NORMAL) :
    execute_current_state cfg c now = c.state_normal := by
  unfold execute_current_state
  rw [hs]

theorem update_normal_tick (cfg : Config) (c : DepthController) (a now : ℚ)
    (hs : c.state = State.NORMAL) (hact : c.step_transition_active = false)
    (h1 : ¬a < c.altitude_threshold_ascend)
    (h2 : ¬(c.trajectory_down = true ∧ a < c.altitude_threshold_level)) :
    update cfg c (some a) now = c.state_normal.advance_vs := by
  simp only [update]
  rw [update_step_transition_inactive c hact,
    handle_transitions_normal_id c a now hs h1 h2,
    execute_normal cfg c now hs]
  rw [if_neg (by simp [hs])]

theorem normal_advance_reached (c : DepthController) (hr : c.end_z_reached = true) :
    c.state_normal.advance_vs = { c with command_depth := c.end_z } := by
  unfold state_normal advance_vs
  rw [if_pos hr, if_pos (show ({ c with command_depth := c.end_z } :
    DepthController).end_z_reached = true from hr)]

theorem normal_advance_down (c : DepthController) (hr : c.end_z_reached = false)
    (htd : c.trajectory_down = true) (hlt : c.current_z < c.end_z) :
    (c.end_z ≤ c.current_z + c.current_step →
      c.state_normal.advance_vs
        = { c with command_depth := c.end_z, current_z := c.end_z, end_z_reached := true }) ∧
    (¬c.end_z ≤ c.current_z + c.current_step →
      c.state_normal.advance_vs
        = { c with
            command_depth := c.current_z
            current_z := c.current_z + c.current_step }) := by
  have hr' : ¬c.end_z_reached = true := by
    rw [hr]
    exact Bool.false_ne_true
  constructor
  · intro hsnap
    unfold state_normal advance_vs
    rw [if_neg hr', if_pos htd, if_pos hsnap]
    rw [if_pos rfl]
  · intro hsnap
    unfold state_normal advance_vs
    rw [if_neg hr', if_pos htd, if_neg hsnap]
    rw [if_neg (show ¬({ c with command_depth := c.current_z } :
      DepthController).end_z_reached = true from hr')]
    rw [if_neg (show ¬(if ({ c with command_depth := c.current_z } :
        DepthController).trajectory_down = true then c.current_z ≥ c.end_z
        else c.current_z ≤ c.end_z) by
      rw [show ({ c with command_depth := c.current_z } :
        DepthController).trajectory_down = c.trajectory_down from rfl, if_pos htd]
      exact not_le.mpr hlt)]

theorem normal_advance_up (c : DepthController) (hr : c.end_z_reached = false)
    (htd : c.trajectory_down = false) (hgt : c.end_z < c.current_z) :
    (c.current_z + c.current_step ≤ c.end_z →
      c.state_normal.advance_vs
        = { c with command_depth := c.end_z, current_z := c.end_z, end_z_reached := true }) ∧
    (¬c.current_z + c.current_step ≤ c.end_z →
      c.state_normal.advance_vs
        = { c with
            command_depth := c.current_z
            current_z := c.current_z + c.current_step }) := by
  have htd' : ¬c.trajectory_down = true := by
    rw [htd]
    exact Bool.false_ne_true
  have hr' : ¬c.end_z_reached = true := by
    rw [hr]
    exact Bool.false_ne_true
  constructor
  · intro hsnap
    unfold state_normal advance_vs
    rw [if_neg hr', if_neg htd', if_pos hsnap]
    rw [if_pos rfl]
  · intro hsnap
    unfold state_normal advance_vs
    rw [if_neg hr', if_neg htd', if_neg hsnap]
    rw [if_neg (show ¬({ c with command_depth := c.current_z } :
      DepthController).end_z_reached = true from hr')]
    rw [if_neg (show ¬(if ({ c with command_depth := c.current_z } :
        DepthController).trajectory_down = true then c.current_z ≥ c.end_z
        else c.current_z ≤ c.end_z) by
      rw [show ({ c with command_depth := c.current_z } :
        DepthController).trajectory_down = c.trajectory_down from rfl, if_neg htd']
      exact not_le.mpr hgt)]

end DepthController

/-- Invariant maintained along a run of a clean (never-interrupted)
controller: the state stays NORMAL, no step transition is active, the
active step is the constant s0, and the planned depth lies strictly on the
approach side of end_z until the end is reached, exactly at end_z after. -/
structure CleanRun (cfg : Config) (td : Bool) (e0 s0 : ℚ)
    (c : DepthController) : Prop where
  hstate : c.state = State.NORMAL
  hact : c.step_transition_active = false
  hstep : c.current_step = s0
  hend : c.end_z = e0
  htd : c.trajectory_down = td
  hta : c.altitude_threshold_ascend = cfg.altitude_threshold_ascend
  htl : c.altitude_threshold_level = cfg.altitude_threshold_level
  hpos : c.end_z_reached = false → (if td = true then c.current_z < e0 else e0 < c.current_z)
  hreach : c.end_z_reached = true → c.current_z = e0

namespace DepthController

theorem clean_run_step (cfg : Config) (td : Bool) (e0 s0 : ℚ) (c : DepthController)
    (hinv : CleanRun cfg td e0 s0 c)
    (hthr : cfg.altitude_threshold_ascend ≤ cfg.altitude_threshold_level)
    (a now : ℚ) (ha : cfg.altitude_threshold_level ≤ a) :
    CleanRun cfg td e0 s0 (update cfg c (some a) now) ∧
    (c.end_z_reached = true →
      (update cfg c (some a) now).end_z_reached = true ∧
      (update cfg c (some a) now).current_z = c.current_z) ∧
    (c.end_z_reached = false →
      ((update cfg c (some a) now).end_z_reached = true ∧
       (update cfg c (some a) now).current_z = e0) ∨
      ((update cfg c (some a) now).end_z_reached = false ∧
       (update cfg c (some a) now).current_z = c.current_z + s0)) := by
  have h1 : ¬a < c.altitude_threshold_ascend := by
    rw [hinv.hta]
    exact not_lt.mpr (le_trans hthr ha)
  have h2 : ¬(c.trajectory_down = true ∧ a < c.altitude_threshold_level) := by
    rintro ⟨_, hlt⟩
    rw [hinv.htl] at hlt
    exact absurd hlt (not_lt.mpr ha)
  rw [update_normal_tick cfg c a now hinv.hstate hinv.hact h1 h2]
  by_cases hr : c.end_z_reached = true
  · rw [normal_advance_reached c hr]
    refine ⟨⟨hinv.hstate, hinv.hact, hinv.hstep, hinv.hend, hinv.htd, hinv.hta,
      hinv.htl, ?_, ?_⟩, ?_, ?_⟩
    · intro habs
      have habs' : c.end_z_reached = false := habs
      rw [hr] at habs'
      cases habs'
    · intro _
      exact hinv.hreach hr
    · intro _
      exact ⟨hr, rfl⟩
    · intro habs
      rw [habs] at hr
      cases hr
  · have hrf : c.end_z_reached = false := by
      cases hcb : c.end_z_reached
      · rfl
      · exact absurd hcb hr
    cases td with
    | true =>
      have htdc : c.trajectory_down = true := hinv.htd
      have hposr := hinv.hpos hrf
      rw [if_pos rfl] at hposr
      have hlt' : c.current_z < c.end_z := by
        rw [hinv.hend]
        exact hposr
      by_cases hsnap : c.end_z ≤ c.current_z + c.current_step
      · rw [(normal_advance_down c hrf htdc hlt').1 hsnap]
        refine ⟨⟨hinv.hstate, hinv.hact, hinv.hstep, hinv.hend, hinv.htd, hinv.hta,
          hinv.htl, ?_, ?_⟩, ?_, ?_⟩
        · intro habs
          cases habs
        · intro _
          exact hinv.hend
        · intro habs
          rw [habs] at hrf
          cases hrf
        · intro _
          exact Or.inl ⟨rfl, hinv.hend⟩
      · rw [(normal_advance_down c hrf htdc hlt').2 hsnap]
        refine ⟨⟨hinv.hstate, hinv.hact, hinv.hstep, hinv.hend, hinv.htd, hinv.hta,
          hinv.htl, ?_, ?_⟩, ?_, ?_⟩
        · intro _
          rw [if_pos rfl]
          show c.current_z + c.current_step < e0
          rw [← hinv.hend]
          exact not_le.mp hsnap
        · intro habs
          have habs' : c.end_z_reached = true := habs
          exact absurd habs' hr
        · intro habs
          rw [habs] at hrf
          cases hrf
        · intro _
          refine Or.inr ⟨hrf, ?_⟩
          show c.current_z + c.current_step = c.current_z + s0
          rw [hinv.hstep]
    | false =>
      have htdc : c.trajectory_down = false := hinv.htd
      have hposr := hinv.hpos hrf
      rw [if_neg (Bool.false_ne_true)] at hposr
      have hgt' : c.end_z < c.current_z := by
        rw [hinv.hend]
        exact hposr
      by_cases hsnap : c.current_z + c.current_step ≤ c.end_z
      · rw [(normal_advance_up c hrf htdc hgt').1 hsnap]
        refine ⟨⟨hinv.hstate, hinv.hact, hinv.hstep, hinv.hend, hinv.htd, hinv.hta,
          hinv.htl, ?_, ?_⟩, ?_, ?_⟩
        · intro habs
          cases habs
        · intro _
          exact hinv.hend
        · intro habs
          rw [habs] at hrf
          cases hrf
        · intro _
          exact Or.inl ⟨rfl, hinv.hend⟩
      · rw [(normal_advance_up c hrf htdc hgt').2 hsnap]
        refine ⟨⟨hinv.hstate, hinv.hact, hinv.hstep, hinv.hend, hinv.htd, hinv.hta,
          hinv.htl, ?_, ?_⟩, ?_, ?_⟩
        · intro _
          rw [if_neg (Bool.false_ne_true)]
          show e0 < c.current_z + c.current_step
          rw [← hinv.hend]
          exact not_le.mp hsnap
        · intro habs
          have habs' : c.end_z_reached = true := habs
          exact absurd habs' hr
        · intro habs
          rw [habs] at hrf
          cases hrf
        · intro _
          refine Or.inr ⟨hrf, ?_⟩
          show c.current_z + c.current_step = c.current_z + s0
          rw [hinv.hstep]

end DepthController

/-- Number of remaining ticks (ceiling of remaining distance over step
magnitude) used as the termination measure of a clean run. -/
def cleanMeasure (td : Bool) (e0 s0 : ℚ) (c : DepthController) : ℕ :=
  (⌈(if td = true then e0 - c.current_z else c.current_z - e0)
      / (if td = true then s0 else -s0)⌉).toNat

theorem ceil_toNat_pos (dist sabs : ℚ) (hd : 0 < dist) (hs : 0 < sabs) :
    1 ≤ (⌈dist / sabs⌉).toNat := by
  have h := Int.ceil_pos.mpr (div_pos hd hs)
  omega

theorem ceil_toNat_decrease (dist sabs : ℚ) (hs : 0 < sabs) (hgt : sabs < dist) :
    (⌈(dist - sabs) / sabs⌉).toNat < (⌈dist / sabs⌉).toNat := by
  have h1 : (dist - sabs) / sabs = dist / sabs - 1 := by
    rw [sub_div, div_self (ne_of_gt hs)]
  rw [h1, Int.ceil_sub_one]
  have h2 : (1 : ℚ) < dist / sabs := (one_lt_div hs).mpr hgt
  have h3 : (1 : ℤ) < ⌈dist / sabs⌉ := Int.lt_ceil.mpr (by exact_mod_cast h2)
  omega

namespace DepthController

theorem clean_run_terminates (cfg : Config) (td : Bool) (e0 s0 : ℚ)
    (alts : ℕ → Option ℚ) (nows : ℕ → ℚ) (c0 : DepthController)
    (hinv0 : CleanRun cfg td e0 s0 c0)
    (hsign : if td = true then 0 < s0 else s0 < 0)
    (hthr : cfg.altitude_threshold_ascend ≤ cfg.altitude_threshold_level)
    (halts : ∀ i, ∃ a, alts i = some a ∧ cfg.altitude_threshold_level ≤ a) :
    (∀ k, CleanRun cfg td e0 s0 (run cfg alts nows c0 k)) ∧
    ∃ n, (run cfg alts nows c0 n).end_z_reached = true := by
  have hall : ∀ k, CleanRun cfg td e0 s0 (run cfg alts nows c0 k) := by
    intro k
    induction k with
    | zero => exact hinv0
    | succ k ih =>
      obtain ⟨a, hak, haz⟩ := halts k
      have hstep := clean_run_step cfg td e0 s0 _ ih hthr a (nows k) haz
      show CleanRun cfg td e0 s0 (update cfg (run cfg alts nows c0 k) (alts k) (nows k))
      rw [hak]
      exact hstep.1
  refine ⟨hall, ?_⟩
  have key : ∀ N i, cleanMeasure td e0 s0 (run cfg alts nows c0 i) ≤ N →
      ∃ n, (run cfg alts nows c0 n).end_z_reached = true := by
    intro N
    induction N with
    | zero =>
      intro i hm
      by_cases hri : (run cfg alts nows c0 i).end_z_reached = true
      · exact ⟨i, hri⟩
      · exfalso
        have hrf : (run cfg alts nows c0 i).end_z_reached = false := by
          cases hcb : (run cfg alts nows c0 i).end_z_reached
          · rfl
          · exact absurd hcb hri
        have hposr := (hall i).hpos hrf
        cases td with
        | true =>
          rw [if_pos rfl] at hposr
          have hs0 : 0 < s0 := by
            rw [if_pos rfl] at hsign
            exact hsign
          have := ceil_toNat_pos (e0 - (run cfg alts nows c0 i).current_z) s0
            (by linarith) hs0
          unfold cleanMeasure at hm
          rw [if_pos rfl, if_pos rfl] at hm
          omega
        | false =>
          rw [if_neg Bool.false_ne_true] at hposr
          have hs0 : 0 < -s0 := by
            rw [if_neg Bool.false_ne_true] at hsign
            linarith
          have := ceil_toNat_pos ((run cfg alts nows c0 i).current_z - e0) (-s0)
            (by linarith) hs0
          unfold cleanMeasure at hm
          rw [if_neg Bool.false_ne_true, if_neg Bool.false_ne_true] at hm
          omega
    | succ N ih =>
      intro i hm
      by_cases hri : (run cfg alts nows c0 i).end_z_reached = true
      · exact ⟨i, hri⟩
      · have hrf : (run cfg alts nows c0 i).end_z_reached = false := by
          cases hcb : (run cfg alts nows c0 i).end_z_reached
          · rfl
          · exact absurd hcb hri
        obtain ⟨a, hak, haz⟩ := halts i
        have hrun : run cfg alts nows c0 (i + 1)
            = update cfg (run cfg alts nows c0 i) (some a) (nows i) := by
          show update cfg (run cfg alts nows c0 i) (alts i) (nows i) = _
          rw [hak]
        have hstep := clean_run_step cfg td e0 s0 _ (hall i) hthr a (nows i) haz
        rcases hstep.2.2 hrf with ⟨hreach, _⟩ | ⟨hnr, hz⟩
        · refine ⟨i + 1, ?_⟩
          rw [hrun]
          exact hreach
        · apply ih (i + 1)
          rw [hrun]
          have hnr' : (run cfg alts nows c0 (i + 1)).end_z_reached = false := by
            rw [hrun]
            exact hnr
          have hposr := (hall (i + 1)).hpos hnr'
          rw [hrun] at hposr
          cases td with
          | true =>
            have hs0 : 0 < s0 := by
              rw [if_pos rfl] at hsign
              exact hsign
            rw [if_pos rfl] at hposr
            rw [hz] at hposr
            unfold cleanMeasure
            rw [if_pos rfl, if_pos rfl]
            unfold cleanMeasure at hm
            rw [if_pos rfl, if_pos rfl] at hm
            have hdec := ceil_toNat_decrease (e0 - (run cfg alts nows c0 i).current_z) s0
              hs0 (by linarith)
            have heq : e0 - (update cfg (run cfg alts nows c0 i) (some a) (nows i)).current_z
                = (e0 - (run cfg alts nows c0 i).current_z) - s0 := by
              rw [hz]
              ring
            rw [heq]
            omega
          | false =>
            have hs0 : 0 < -s0 := by
              rw [if_neg Bool.false_ne_true] at hsign
              linarith
            rw [if_neg Bool.false_ne_true] at hposr
            rw [hz] at hposr
            unfold cleanMeasure
            rw [if_neg Bool.false_ne_true, if_neg Bool.false_ne_true]
            unfold cleanMeasure at hm
            rw [if_neg Bool.false_ne_true, if_neg Bool.false_ne_true] at hm
            have hdec := ceil_toNat_decrease ((run cfg alts nows c0 i).current_z - e0) (-s0)
              hs0 (by linarith)
            have heq : (update cfg (run cfg alts nows c0 i) (some a) (nows i)).current_z - e0
                = ((run cfg alts nows c0 i).current_z - e0) - -s0 := by
              rw [hz]
              ring
            rw [heq]
            omega
  exact key (cleanMeasure td e0 s0 (run cfg alts nows c0 0)) 0 le_rfl

end DepthController

/-- C4: a controller built from a plan with start_z ≠ end_z, previous_step
= step, trajectory_down = (end_z > start_z), and a step whose sign moves
current_z toward end_z (as when computed from the plan with positive speed
and distance), fed altitudes that are present and at least
altitude_threshold_level on every tick (with altitude_threshold_ascend ≤
altitude_threshold_level), stays in NORMAL on every tick and after
finitely many updates reaches end_z_reached with current_z = end_z
exactly. -/
theorem clean_descent_terminates (cfg : Config) (start_z end_z step mas : ℚ)
    (alts : ℕ → Option ℚ) (nows : ℕ → ℚ)
    (hne : start_z ≠ end_z)
    (hsign : if end_z > start_z then 0 < step else step < 0)
    (hthr : cfg.altitude_threshold_ascend ≤ cfg.altitude_threshold_level)
    (halts : ∀ i, ∃ a, alts i = some a ∧ cfg.altitude_threshold_level ≤ a) :
    (∀ k, (DepthController.run cfg alts nows
        (DepthController.init cfg start_z end_z step mas
          (decide (end_z > start_z)) step) k).state = State.NORMAL) ∧
    ∃ n, (DepthController.run cfg alts nows
        (DepthController.init cfg start_z end_z step mas
          (decide (end_z > start_z)) step) n).end_z_reached = true ∧
      (DepthController.run cfg alts nows
        (DepthController.init cfg start_z end_z step mas
          (decide (end_z > start_z)) step) n).current_z = end_z := by
  have hinv0 : CleanRun cfg (decide (end_z > start_z)) end_z step
      (DepthController.init cfg start_z end_z step mas
        (decide (end_z > start_z)) step) := by
    refine ⟨rfl, ?_, rfl, rfl, rfl, rfl, rfl, ?_, ?_⟩
    · show decide (step ≠ step) = false
      simp
    · intro _
      by_cases h : end_z > start_z
      · rw [if_pos (decide_eq_true h)]
        exact h
      · rw [if_neg (by simp [h])]
        exact lt_of_le_of_ne (not_lt.mp h) (fun he => hne he.symm)
    · intro habs
      cases habs
  have hsign' : if (decide (end_z > start_z)) = true then 0 < step else step < 0 := by
    by_cases h : end_z > start_z
    · rw [if_pos (decide_eq_true h)]
      rw [if_pos h] at hsign
      exact hsign
    · rw [if_neg (by simp [h])]
      rw [if_neg h] at hsign
      exact hsign
  obtain ⟨hall, n, hn⟩ := DepthController.clean_run_terminates cfg _ end_z step alts nows
    (DepthController.init cfg start_z end_z step mas (decide (end_z > start_z)) step)
    hinv0 hsign' hthr halts
  exact ⟨fun k => (hall k).hstate, n, hn, (hall n).hreach hn⟩

/-- Witness for C4 at the S1-style scenario: sample configuration,
descent 10 m → 20 m, step 1, constant altitude 8 m (≥ level threshold 5). -/
theorem clean_descent_terminates_witness :
    (∀ k, (DepthController.run sampleConfig (fun _ => some 8) (fun _ => 0)
        (DepthController.init sampleConfig 10 20 1 1
          (decide ((20 : ℚ) > 10)) 1) k).state = State.NORMAL) ∧
    ∃ n, (DepthController.run sampleConfig (fun _ => some 8) (fun _ => 0)
        (DepthController.init sampleConfig 10 20 1 1
          (decide ((20 : ℚ) > 10)) 1) n).end_z_reached = true ∧
      (DepthController.run sampleConfig (fun _ => some 8) (fun _ => 0)
        (DepthController.init sampleConfig 10 20 1 1
          (decide ((20 : ℚ) > 10)) 1) n).current_z = 20 :=
  clean_descent_terminates sampleConfig 10 20 1 1 (fun _ => some 8) (fun _ => 0)
    (by norm_num)
    (by norm_num)
    (by norm_num [sampleConfig])
    (fun i => ⟨8, rfl, by norm_num [sampleConfig]⟩)
